import Mathlib

/-!
Verification of the tezos synchronisation core and the bitcoin
estimateMaxSpendable of ledger-live-common, as a shallow embedding.

Conventions of the embedding:
* JS `undefined`-able record fields become `Option` fields.
* `BigNumber` monetary amounts become `Int` (arbitrary precision, exact `plus`).
* `x || 0` on an optional number becomes `Option.getD x 0` (the JS falsy value
  `0` maps to `0` either way).
* `a?.b` optional chaining collapses into a single `Option` field.
* JS string truthiness (`s || t`): `none` and `some ""` are falsy.
-/

set_option autoImplicit false

namespace LLC

/-- A raw indexed transaction as returned by the tzkt indexer
(`APIOperation` in the source). The `kind` field is the source's `tx.type`
string discriminant; per-kind payload fields are optional, matching the
dynamic JS record. `originatedContract` is the originated contract's address,
a required field of origination operations (the source dereferences
`tx.originatedContract.address` unguarded). -/
structure APIOperation where
  kind : String
  status : Option String := none
  initiator : Option String := none
  sender : Option String := none
  target : Option String := none
  amount : Option Int := none
  newDelegate : Option String := none
  balanceChange : Option Int := none
  contractBalance : Option Int := none
  originatedContract : String := ""
  balance : Option Int := none
  hash : String := ""
  allocationFee : Option Int := none
  bakerFee : Option Int := none
  storageFee : Option Int := none
  level : Int := 0
  block : String := ""
  timestamp : String := ""
  id : Option String := none
  deriving Repr, DecidableEq

/-- The canonical operation record produced by the classifier
(`Operation` in the source; the `extra : {}` field carries no data and is
omitted). -/
structure Operation where
  id : String
  hash : String
  type : String
  value : Int
  fee : Int
  senders : List String
  recipients : List String
  blockHeight : Int
  blockHash : String
  accountId : String
  date : String
  hasFailed : Bool
  deriving Repr, DecidableEq

/-- `tx.status ? tx.status !== "applied" : false`: an absent or empty (falsy)
status means not failed; otherwise failed iff the status differs from
`"applied"`. -/
def hasFailed (tx : APIOperation) : Bool :=
  match tx.status with
  | some s => if s = "" then false else decide (s ≠ "applied")
  | none => false

/-- JS string-truthy disjunction `a || b`: `a` unless it is absent or the
empty string. -/
def jsOr (a : Option String) (b : String) : String :=
  match a with
  | some s => if s = "" then b else s
  | none => b

/-- Modelled from the spec: `encodeOperationId` lives in `../../operation`,
outside the provided sources. The spec states only that the id is
deterministically derived from `(accountId, hash, type)`. -/
def encodeOperationId (accountId hash ty : String) : String :=
  accountId ++ "-" ++ hash ++ "-" ++ ty

/-- The `switch (tx.type)` of `txToOp`: classify a raw transaction into
`(type, maybeValue, senders, recipients)`, or `none` when the source
discards it (unrelated transaction, unsupported kind). The JS `switch` on a
string discriminant is a sequential equality chain. -/
def classifyTx (address : String) (tx : APIOperation) :
    Option (String × Option Int × List String × List String) :=
  if tx.kind = "transaction" then
    if tx.sender ≠ some address ∧ tx.target ≠ some address ∧
        tx.initiator ≠ some address then
      -- failsafe for a case that shouldn't happen: unrelated tx
      none
    else
      let senders := [jsOr tx.sender (jsOr tx.initiator "")]
      let recipients := [jsOr tx.target ""]
      if (tx.sender = some address ∧ tx.target = some address) ∨
          (tx.sender ≠ some address ∧ tx.target ≠ some address) then
        -- self tx, or initiator-only: we just pay fees in that case
        some ("FEES", none, senders, recipients)
      else
        let ty := if tx.target = some address then "IN" else "OUT"
        if hasFailed tx then
          some (ty, none, senders, recipients)
        else
          let v := tx.amount.getD 0
          some (if v = 0 then "FEES" else ty, some v, senders, recipients)
  else if tx.kind = "delegation" then
    some (if tx.newDelegate.isSome then "DELEGATE" else "UNDELEGATE", none,
      [address], [tx.newDelegate.getD ""])
  else if tx.kind = "reveal" then
    some ("REVEAL", none, [address], [address])
  else if tx.kind = "migration" then
    some (if tx.balanceChange.getD 0 < 0 then "OUT" else "IN",
      some ((tx.balanceChange.getD 0).natAbs : Int), [address], [address])
  else if tx.kind = "origination" then
    some ("CREATE", some (tx.contractBalance.getD 0), [address],
      [tx.originatedContract])
  else if tx.kind = "activation" then
    some ("IN", some (tx.balance.getD 0), [address], [address])
  else
    -- unsupported tx kind
    none

/-- `txToOp` of `families/tezos/synchronisation.js`: classification followed
by the common post-processing (zero-value `IN` discard, fee computation,
fee folded into `value` for every type but `IN`). -/
def txToOp (address accountId : String) (tx : APIOperation) :
    Option Operation :=
  match classifyTx address tx with
  | none => none
  | some (ty, maybeValue, senders, recipients) =>
    let value := maybeValue.getD 0
    if ty = "IN" ∧ value = 0 then
      none -- not interesting op
    else
      let baseFee := tx.bakerFee.getD 0
      let fee := if hasFailed tx then baseFee
        else baseFee + tx.allocationFee.getD 0 + tx.storageFee.getD 0
      let value := if ty ≠ "IN" then value + fee else value
      some
        { id := encodeOperationId accountId tx.hash ty
          hash := tx.hash
          type := ty
          value := value
          fee := fee
          senders := senders
          recipients := recipients
          blockHeight := tx.level
          blockHash := tx.block
          accountId := accountId
          date := tx.timestamp
          hasFailed := hasFailed tx }

/-- A concrete applied incoming transfer: `B` sends 50 to `A`. -/
def sampleInTx : APIOperation :=
  { kind := "transaction", status := some "applied",
    sender := some "B", target := some "A",
    amount := some 50, hash := "h" }

/-- The operation `txToOp` produces for `sampleInTx` at address `A`. -/
def sampleInOp : Operation :=
  { id := "acc-h-IN", hash := "h", type := "IN", value := 50, fee := 0,
    senders := ["B"], recipients := ["A"], blockHeight := 0, blockHash := "",
    accountId := "acc", date := "", hasFailed := false }

/-- A concrete failed outgoing transfer: `A` sends 7 to `B`, status
`"failed"`, with baker, allocation and storage fees 3, 2, 5. -/
def sampleFailedTx : APIOperation :=
  { kind := "transaction", status := some "failed",
    sender := some "A", target := some "B",
    amount := some 7, bakerFee := some 3, allocationFee := some 2,
    storageFee := some 5, hash := "h2" }

/-- The operation `txToOp` produces for `sampleFailedTx` at address `A`:
only the baker fee is charged, and it is folded into the value. -/
def sampleFailedOp : Operation :=
  { id := "acc-h2-OUT", hash := "h2", type := "OUT", value := 3, fee := 3,
    senders := ["A"], recipients := ["B"], blockHeight := 0, blockHash := "",
    accountId := "acc", date := "", hasFailed := true }

/-- A concrete applied self-transfer: `A` sends 9 to itself, baker fee 2. -/
def sampleSelfTx : APIOperation :=
  { kind := "transaction", status := some "applied",
    sender := some "A", target := some "A",
    amount := some 9, bakerFee := some 2, hash := "h3" }

/-- A concrete applied zero-amount transfer from `A` to `B`. -/
def sampleZeroTx : APIOperation :=
  { kind := "transaction", status := some "applied",
    sender := some "A", target := some "B",
    amount := some 0, hash := "h4" }

/-- A concrete failed (backtracked) incoming transfer of 100 from `B` to
`A`. -/
def sampleFailedInTx : APIOperation :=
  { kind := "transaction", status := some "backtracked",
    sender := some "B", target := some "A",
    amount := some 100, hash := "h5" }

/-- The loop of `fetchAllTransactions`, with the `maxIteration` budget as
explicit fuel (the source initialises `maxIteration = 20` and runs a
`do … while (--maxIteration)`, so the body runs at most `fuel` times).
`api lastId` models `api.getAccountOperations(address, { lastId })` for the
fixed address; a page's cursor is the last accumulated item's `id`, and a
falsy cursor (absent or empty string) stops the loop, as does an empty
page. -/
def fetchLoop (api : Option String → List APIOperation) :
    Nat → Option String → List APIOperation → List APIOperation
  | 0, _, txs => txs
  | fuel + 1, lastId, txs =>
    let r := api lastId
    if r = [] then txs
    else
      match (txs ++ r).getLast? with
      | none => txs ++ r
      | some t =>
        match t.id with
        | none => txs ++ r
        | some s =>
          if s = "" then txs ++ r
          else fetchLoop api fuel (some s) (txs ++ r)

/-- `fetchAllTransactions` of the source: run the loop with budget 20,
no initial cursor and no accumulated transactions. -/
def fetchAllTransactions (api : Option String → List APIOperation) :
    List APIOperation :=
  fetchLoop api 20 none []

/-- The sequence of pages the loop receives from the indexer, one list per
`api` call (the final stopping page included), with the same stopping
conditions and fuel as `fetchLoop`. -/
def fetchPages (api : Option String → List APIOperation) :
    Nat → Option String → List APIOperation → List (List APIOperation)
  | 0, _, _ => []
  | fuel + 1, lastId, txs =>
    let r := api lastId
    if r = [] then [r]
    else
      match (txs ++ r).getLast? with
      | none => [r]
      | some t =>
        match t.id with
        | none => [r]
        | some s =>
          if s = "" then [r]
          else r :: fetchPages api fuel (some s) (txs ++ r)

/-- The pages fetched by `fetchAllTransactions`. -/
def fetchPagesAll (api : Option String → List APIOperation) :
    List (List APIOperation) :=
  fetchPages api 20 none []

/-- A constant indexer that always answers one transaction whose cursor id
is `"x"`: it never returns an empty page and never loses the cursor. -/
def constApi : Option String → List APIOperation :=
  fun _ => [{ kind := "transaction", id := some "x" }]

/-- A derived sub-account (token account) as the reconciler sees it.
JS object identity is modelled explicitly: sub-accounts are references
(`Nat`) resolved through a store; `id` is the sub-account id and `fields`
the remaining enumerable fields, whose values are compared shallowly
(reference/primitive equality), modelled as `Nat` with decidable
equality. -/
structure TokenAccount where
  id : String
  fields : List (String × Nat)
  deriving Repr, DecidableEq

/-- The slice of `initialAccount` the reconciler reads: the optional
`subAccounts` list of object references. -/
structure InitialAccount where
  subAccounts : Option (List Nat)
  deriving Repr, DecidableEq

/-- The shallow-equality check inside `reconciliateSubAccounts`: identical
references are equal outright (the `existing !== ta` guard); otherwise
iterate the keys of `existing` (its `id` included, always equal here since
`existing` was found by id) and compare against `ta`'s value for the same
key; keys only present on `ta` are not inspected, as in the source's
`for (let k in existing)`. -/
def shallowEqual (store : Nat → TokenAccount) (existing ta : Nat) : Bool :=
  if existing = ta then true
  else
    (store existing).id == (store ta).id &&
      (store existing).fields.all
        (fun kv => (store ta).fields.lookup kv.1 == some kv.2)

/-- One step of the reconciler's `map`: find a previous sub-account with the
same id; keep the previous object when shallow-equal, otherwise return the
derived one. -/
def reconcileEntry (store : Nat → TokenAccount)
    (initialSubAccounts : Option (List Nat)) (ta : Nat) : Nat :=
  match initialSubAccounts with
  | none => ta
  | some subs =>
    match subs.find? (fun a => (store a).id == (store ta).id) with
    | some existing => if shallowEqual store existing ta then existing else ta
    | none => ta

/-- Whether the reconciler records a change note for this entry: no previous
sub-account with this id (`new token account`), or a shallow-unequal one
(`field changed`). -/
def entryChanged (store : Nat → TokenAccount)
    (initialSubAccounts : Option (List Nat)) (ta : Nat) : Bool :=
  match initialSubAccounts with
  | none => true
  | some subs =>
    match subs.find? (fun a => (store a).id == (store ta).id) with
    | some existing => !shallowEqual store existing ta
    | none => true

/-- The reconciler's `anySubAccountHaveChanged` flag: a length difference
(`length differ`, only checked when a previous list exists) or any
per-entry change note. -/
def anySubAccountHaveChanged (store : Nat → TokenAccount)
    (tokenAccounts : List Nat) (initialSubAccounts : Option (List Nat)) :
    Bool :=
  (match initialSubAccounts with
   | some subs => tokenAccounts.length != subs.length
   | none => false) ||
  tokenAccounts.any (entryChanged store initialSubAccounts)

/-- `reconciliateSubAccounts` of the source: with no previous account, a
fresh copy of the derived list; otherwise the per-entry reconciliation,
replaced wholesale by the previous list when no change was noted and a
previous list exists (a JS empty array is truthy, hence `isSome`). -/
def reconciliateSubAccounts (store : Nat → TokenAccount)
    (tokenAccounts : List Nat) (initialAccount : Option InitialAccount) :
    List Nat :=
  match initialAccount with
  | none => tokenAccounts.map (fun a => a)
  | some acc =>
    if !anySubAccountHaveChanged store tokenAccounts acc.subAccounts
        && acc.subAccounts.isSome then
      acc.subAccounts.getD []
    else
      tokenAccounts.map (reconcileEntry store acc.subAccounts)

/-- A concrete store for two distinct references `0` and `1` holding
field-identical sub-accounts with id `"a"` and one field `("b", 5)`. -/
def wStore : Nat → TokenAccount :=
  fun n => if n = 0 then ⟨"a", [("b", 5)]⟩
    else if n = 1 then ⟨"a", [("b", 5)]⟩
    else ⟨"z", []⟩

/-- The fee rate `estimateMaxSpendable` hands to the wallet: the
transaction's `feePerByte` when the transaction carries one (a `BigNumber`
is an object, hence truthy even at zero; `!feePerByte` only catches an
absent field), otherwise the network's `defaultFeePerByte`. -/
def chosenFeePerByte (txFeePerByte : Option Int)
    (defaultFeePerByte : Int) : Int :=
  match txFeePerByte with
  | some f => f
  | none => defaultFeePerByte

/-- `estimateMaxSpendable` of `families/bitcoin/js-estimateMaxSpendable.ts`:
ask the external wallet for its estimate at the chosen fee rate and clamp a
negative answer to zero. The wallet library is the external collaborator
`wallet.estimateAccountMaxSpendable`, modelled as the function
`walletEstimate`. -/
def estimateMaxSpendable (walletEstimate : Int → Int)
    (txFeePerByte : Option Int) (defaultFeePerByte : Int) : Int :=
  let maxSpendable :=
    walletEstimate (chosenFeePerByte txFeePerByte defaultFeePerByte)
  if maxSpendable < 0 then 0 else maxSpendable

end LLC

namespace LLC

/-- Claim C1: whenever `txToOp` emits an operation, the operation's type is
the classified type, and its value is the classified principal plus the
computed fee for every type but `IN`, while for `IN` it is the principal
alone (the fee only in the `fee` field). -/
theorem txToOp_value_principal_fee (address accountId : String)
    (tx : APIOperation) (op : Operation)
    (h : txToOp address accountId tx = some op) :
    ∃ ty mv senders recipients,
      classifyTx address tx = some (ty, mv, senders, recipients) ∧
      op.type = ty ∧
      (op.type ≠ "IN" → op.value = mv.getD 0 + op.fee) ∧
      (op.type = "IN" → op.value = mv.getD 0) := by
  unfold txToOp at h
  rcases hc : classifyTx address tx with _ | ⟨ty, mv, s, r⟩ <;> rw [hc] at h
  · exact absurd h (by simp)
  · refine ⟨ty, mv, s, r, rfl, ?_⟩
    simp only [] at h
    split at h
    · exact absurd h (by simp)
    · rcases Option.some.injEq _ _ ▸ h with rfl
      refine ⟨rfl, ?_, ?_⟩
      · intro hne
        simp only [if_pos hne]
      · intro heq
        have hty : ty = "IN" := heq
        have : ¬(ty ≠ "IN") := by simp [hty]
        simp only [if_neg this]

/-- Witness for C1: the concrete incoming transfer `sampleInTx` is emitted
as `sampleInOp`, whose value is the bare principal. -/
theorem txToOp_value_principal_fee_witness :
    ∃ ty mv senders recipients,
      classifyTx "A" sampleInTx = some (ty, mv, senders, recipients) ∧
      sampleInOp.type = ty ∧
      (sampleInOp.type ≠ "IN" → sampleInOp.value = mv.getD 0 + sampleInOp.fee) ∧
      (sampleInOp.type = "IN" → sampleInOp.value = mv.getD 0) :=
  txToOp_value_principal_fee "A" "acc" sampleInTx sampleInOp (by decide)

/-- Claim C2: whenever `txToOp` emits an operation, its fee is the baker fee
alone for failed transactions, and the baker fee plus allocation fee plus
storage fee otherwise. -/
theorem txToOp_fee_eq (address accountId : String) (tx : APIOperation)
    (op : Operation) (h : txToOp address accountId tx = some op) :
    op.fee = if hasFailed tx then tx.bakerFee.getD 0
      else tx.bakerFee.getD 0 + tx.allocationFee.getD 0 +
        tx.storageFee.getD 0 := by
  unfold txToOp at h
  rcases hc : classifyTx address tx with _ | ⟨ty, mv, s, r⟩ <;> rw [hc] at h
  · exact absurd h (by simp)
  · simp only [] at h
    split at h
    · exact absurd h (by simp)
    · rcases Option.some.injEq _ _ ▸ h with rfl
      rfl

/-- Witness for C2: the failed transfer `sampleFailedTx` is emitted as
`sampleFailedOp`, which is charged the baker fee only. -/
theorem txToOp_fee_eq_witness :
    sampleFailedOp.fee = if hasFailed sampleFailedTx
      then sampleFailedTx.bakerFee.getD 0
      else sampleFailedTx.bakerFee.getD 0 +
        sampleFailedTx.allocationFee.getD 0 +
        sampleFailedTx.storageFee.getD 0 :=
  txToOp_fee_eq "A" "acc" sampleFailedTx sampleFailedOp (by decide)

/-- Claim C7: the classifier never emits an operation of type `IN` with a
zero value: such raw transactions are discarded before the fee is folded in,
and for `IN` the value is never modified afterwards. -/
theorem txToOp_no_zero_value_in (address accountId : String)
    (tx : APIOperation) (op : Operation)
    (h : txToOp address accountId tx = some op) :
    ¬(op.type = "IN" ∧ op.value = 0) := by
  unfold txToOp at h
  rcases hc : classifyTx address tx with _ | ⟨ty, mv, s, r⟩ <;> rw [hc] at h
  · exact absurd h (by simp)
  · simp only [] at h
    split at h
    · exact absurd h (by simp)
    · rename_i hni
      rcases Option.some.injEq _ _ ▸ h with rfl
      intro hcon
      simp only [] at hcon
      rcases hcon with ⟨hty, hval⟩
      apply hni
      constructor
      · exact hty
      · rw [hty] at hval
        simpa using hval

/-- Witness for C7: a concrete applied incoming transfer of amount 50 is
emitted, and the emitted operation is not a zero-value `IN`. -/
theorem txToOp_no_zero_value_in_witness :
    ¬(sampleInOp.type = "IN" ∧ sampleInOp.value = 0) :=
  txToOp_no_zero_value_in "A" "acc" sampleInTx sampleInOp (by decide)

/-- Claim C5: a related transfer that is a self-transfer, or whose account
only appears as initiator, classifies as `FEES` with no principal, and the
emitted operation's value is the fee alone. -/
theorem txToOp_self_or_initiator_fees (address accountId : String)
    (tx : APIOperation)
    (hkind : tx.kind = "transaction")
    (hrel : (tx.sender = some address ∧ tx.target = some address) ∨
      (tx.sender ≠ some address ∧ tx.target ≠ some address ∧
        tx.initiator = some address)) :
    classifyTx address tx =
      some ("FEES", none, [jsOr tx.sender (jsOr tx.initiator "")],
        [jsOr tx.target ""]) ∧
    ∃ op, txToOp address accountId tx = some op ∧
      op.type = "FEES" ∧ op.value = op.fee := by
  have hcls : classifyTx address tx =
      some ("FEES", none, [jsOr tx.sender (jsOr tx.initiator "")],
        [jsOr tx.target ""]) := by
    rcases hrel with ⟨h1, h2⟩ | ⟨h1, h2, h3⟩
    · simp [classifyTx, hkind, h1, h2]
    · simp [classifyTx, hkind, h1, h2, h3]
  refine ⟨hcls, ?_⟩
  unfold txToOp
  rw [hcls]
  simp only []
  rw [if_neg (by decide :
    ¬(("FEES" : String) = "IN" ∧ (Option.getD (none : Option Int) 0) = 0))]
  refine ⟨_, rfl, rfl, ?_⟩
  rw [if_pos (by decide : ("FEES" : String) ≠ "IN")]
  simp

/-- Witness for C5: the concrete self-transfer `sampleSelfTx` classifies as
`FEES` and its emitted value equals its fee. -/
theorem txToOp_self_or_initiator_fees_witness :
    classifyTx "A" sampleSelfTx =
      some ("FEES", none,
        [jsOr sampleSelfTx.sender (jsOr sampleSelfTx.initiator "")],
        [jsOr sampleSelfTx.target ""]) ∧
    ∃ op, txToOp "A" "acc" sampleSelfTx = some op ∧
      op.type = "FEES" ∧ op.value = op.fee :=
  txToOp_self_or_initiator_fees "A" "acc" sampleSelfTx rfl (Or.inl ⟨rfl, rfl⟩)

/-- Claim C6: a transfer with zero (or absent) amount and non-failed status
that the classifier keeps is classified `FEES`, never `IN` or `OUT`. -/
theorem classifyTx_zero_amount_fees (address : String) (tx : APIOperation)
    (ty : String) (mv : Option Int) (s r : List String)
    (hkind : tx.kind = "transaction")
    (hfail : hasFailed tx = false)
    (hamount : tx.amount.getD 0 = 0)
    (h : classifyTx address tx = some (ty, mv, s, r)) :
    ty = "FEES" := by
  simp only [classifyTx, hkind, hfail, hamount, if_true] at h
  split_ifs at h <;> simp_all

/-- Witness for C6: the concrete zero-amount applied transfer `sampleZeroTx`
classifies with type `FEES`. -/
theorem classifyTx_zero_amount_fees_witness :
    hasFailed sampleZeroTx = false ∧ sampleZeroTx.amount.getD 0 = 0 ∧
    ("FEES" : String) = "FEES" :=
  ⟨by decide, by decide,
    classifyTx_zero_amount_fees "A" sampleZeroTx "FEES" (some 0) ["A"] ["B"]
      rfl (by decide) (by decide) (by decide)⟩

/-- Claim C8: a failed incoming transfer (target is the account, sender is
not) is discarded: the amount is never read for failed transactions, the
value stays zero, and the zero-value `IN` discard applies. -/
theorem txToOp_failed_incoming_none (address accountId : String)
    (tx : APIOperation)
    (hkind : tx.kind = "transaction")
    (hto : tx.target = some address)
    (hfrom : tx.sender ≠ some address)
    (hfail : hasFailed tx = true) :
    txToOp address accountId tx = none := by
  have hcls : classifyTx address tx =
      some ("IN", none, [jsOr tx.sender (jsOr tx.initiator "")],
        [jsOr tx.target ""]) := by
    simp [classifyTx, hkind, hto, hfrom, hfail]
  simp [txToOp, hcls]

/-- Witness for C8: the concrete failed incoming transfer of amount 100,
`sampleFailedInTx`, yields no operation. -/
theorem txToOp_failed_incoming_none_witness :
    txToOp "A" "acc" sampleFailedInTx = none :=
  txToOp_failed_incoming_none "A" "acc" sampleFailedInTx rfl rfl
    (by decide) (by decide)

/-- Helper: every tuple produced by `classifyTx` carries singleton sender
and recipient lists. -/
theorem classifyTx_party_lists (address : String) (tx : APIOperation)
    (ty : String) (mv : Option Int) (s r : List String)
    (h : classifyTx address tx = some (ty, mv, s, r)) :
    s.length = 1 ∧ r.length = 1 := by
  simp only [classifyTx] at h
  split_ifs at h <;>
    first
      | exact Option.noConfusion h
      | (rw [Option.some.injEq] at h
         rcases h with ⟨rfl, rfl, rfl, rfl⟩
         exact ⟨rfl, rfl⟩)

/-- Claim C9: every operation the classifier emits has exactly one sender
and exactly one recipient (each possibly the empty string). -/
theorem txToOp_single_parties (address accountId : String)
    (tx : APIOperation) (op : Operation)
    (h : txToOp address accountId tx = some op) :
    op.senders.length = 1 ∧ op.recipients.length = 1 := by
  unfold txToOp at h
  rcases hc : classifyTx address tx with _ | ⟨ty, mv, s, r⟩ <;> rw [hc] at h
  · exact absurd h (by simp)
  · have hsr := classifyTx_party_lists address tx ty mv s r hc
    simp only [] at h
    split at h
    · exact absurd h (by simp)
    · rcases Option.some.injEq _ _ ▸ h with rfl
      exact hsr

/-- Witness for C9: the concrete emitted operation `sampleFailedOp` has one
sender and one recipient. -/
theorem txToOp_single_parties_witness :
    sampleFailedOp.senders.length = 1 ∧
      sampleFailedOp.recipients.length = 1 :=
  txToOp_single_parties "A" "acc" sampleFailedTx sampleFailedOp (by decide)

/-- Helper: the loop accumulates exactly the concatenation of the pages it
receives. -/
theorem fetchLoop_eq_append_flatten
    (api : Option String → List APIOperation) :
    ∀ (fuel : Nat) (lastId : Option String) (txs : List APIOperation),
      fetchLoop api fuel lastId txs =
        txs ++ (fetchPages api fuel lastId txs).flatten := by
  intro fuel
  induction fuel with
  | zero => intro l t; simp [fetchLoop, fetchPages]
  | succ n ih =>
    intro l t
    simp only [fetchLoop, fetchPages]
    by_cases hr : api l = []
    · simp [hr]
    · rw [if_neg hr, if_neg hr]
      rcases hg : (t ++ api l).getLast? with _ | tl
      · simp [hg]
      · simp only [hg]
        rcases hid : tl.id with _ | s
        · simp [hid]
        · simp only [hid]
          by_cases hs : s = ""
          · simp [hs]
          · simp [hs, ih]

/-- Helper: the loop makes at most `fuel` page fetches. -/
theorem fetchPages_length_le (api : Option String → List APIOperation) :
    ∀ (fuel : Nat) (lastId : Option String) (txs : List APIOperation),
      (fetchPages api fuel lastId txs).length ≤ fuel := by
  intro fuel
  induction fuel with
  | zero => intro l t; simp [fetchPages]
  | succ n ih =>
    intro l t
    simp only [fetchPages]
    by_cases hr : api l = []
    · simp [hr]
    · rw [if_neg hr]
      rcases hg : (t ++ api l).getLast? with _ | tl
      · simp [hg]
      · simp only [hg]
        rcases hid : tl.id with _ | s
        · simp [hid]
        · simp only [hid]
          by_cases hs : s = ""
          · simp [hs]
          · simp only [hs, if_false, List.length_cons]
            exact Nat.succ_le_succ (ih _ _)

/-- Helper: every page the loop accumulates is a response of the indexer. -/
theorem fetchPages_mem (api : Option String → List APIOperation) :
    ∀ (fuel : Nat) (lastId : Option String) (txs : List APIOperation)
      (p : List APIOperation), p ∈ fetchPages api fuel lastId txs →
      ∃ l, p = api l := by
  intro fuel
  induction fuel with
  | zero => intro l t p hp; simp [fetchPages] at hp
  | succ n ih =>
    intro l t p hp
    simp only [fetchPages] at hp
    by_cases hr : api l = []
    · rw [if_pos hr] at hp
      simp at hp
      exact ⟨l, by rw [hp, hr]⟩
    · rw [if_neg hr] at hp
      rcases hg : (t ++ api l).getLast? with _ | tl <;> simp only [hg] at hp
      · simp at hp; exact ⟨l, hp⟩
      · rcases hid : tl.id with _ | s <;> simp only [hid] at hp
        · simp at hp; exact ⟨l, hp⟩
        · by_cases hs : s = ""
          · rw [if_pos hs] at hp; simp at hp; exact ⟨l, hp⟩
          · rw [if_neg hs] at hp
            rcases List.mem_cons.mp hp with rfl | hp'
            · exact ⟨l, rfl⟩
            · exact ih _ _ _ hp'

/-- Helper: when no page is empty and the cursor never goes missing, the
loop spends its whole fuel. -/
theorem fetchPages_length_eq (api : Option String → List APIOperation)
    (H : ∀ l, api l ≠ [] ∧
      ∀ x, (api l).getLast? = some x → ∃ s, x.id = some s ∧ s ≠ "") :
    ∀ (fuel : Nat) (lastId : Option String) (txs : List APIOperation),
      (fetchPages api fuel lastId txs).length = fuel := by
  intro fuel
  induction fuel with
  | zero => intro l t; simp [fetchPages]
  | succ n ih =>
    intro l t
    have hr : api l ≠ [] := (H l).1
    have hlast : (t ++ api l).getLast? = (api l).getLast? :=
      List.getLast?_append_of_ne_nil t hr
    rcases hx : (api l).getLast? with _ | x
    · exact absurd (List.getLast?_eq_none_iff.mp hx) hr
    · rcases (H l).2 x hx with ⟨s, hid, hs⟩
      simp only [fetchPages]
      rw [if_neg hr, hlast, hx]
      simp only [hid]
      rw [if_neg hs]
      simp [ih]

/-- Claim C4: the paginated fetcher returns the concatenation of the pages
it fetched; it never makes more than 20 page fetches (each fetched page,
the stopping one included, is an indexer response), and when no page comes
back empty and no cursor is ever missing it makes exactly 20. -/
theorem fetchAllTransactions_pagination
    (api : Option String → List APIOperation) :
    (fetchPagesAll api).length ≤ 20 ∧
    fetchAllTransactions api = (fetchPagesAll api).flatten ∧
    (∀ p ∈ fetchPagesAll api, ∃ l, p = api l) ∧
    ((∀ l, api l ≠ [] ∧
        ∀ x, (api l).getLast? = some x → ∃ s, x.id = some s ∧ s ≠ "") →
      (fetchPagesAll api).length = 20) := by
  refine ⟨fetchPages_length_le api 20 none [], ?_, ?_, ?_⟩
  · have h := fetchLoop_eq_append_flatten api 20 none []
    simpa [fetchAllTransactions, fetchPagesAll] using h
  · intro p hp
    exact fetchPages_mem api 20 none [] p hp
  · intro H
    exact fetchPages_length_eq api H 20 none []

/-- Witness for C4: against the constant never-empty indexer `constApi`,
the fetcher makes exactly 20 page fetches. -/
theorem fetchAllTransactions_pagination_witness :
    (fetchPagesAll constApi).length = 20 :=
  (fetchAllTransactions_pagination constApi).2.2.2 (by
    intro l
    refine ⟨by simp [constApi], ?_⟩
    intro x hx
    simp only [constApi, List.getLast?_singleton, Option.some.injEq] at hx
    exact ⟨"x", by rw [← hx], by decide⟩)

/-- Claim C3: a derived sub-account whose id matches a previous one and
which is shallow-equal to it is reconciled to the previous object (and that
previous object is in the returned list); when no change note at all was
recorded and a previous list exists, the returned list is the previous list
itself. -/
theorem reconciliateSubAccounts_identity (store : Nat → TokenAccount)
    (tokenAccounts : List Nat) (acc : InitialAccount) (subs : List Nat)
    (hsubs : acc.subAccounts = some subs) :
    (∀ ta ∈ tokenAccounts, ∀ ex,
      subs.find? (fun a => (store a).id == (store ta).id) = some ex →
      shallowEqual store ex ta = true →
      reconcileEntry store acc.subAccounts ta = ex ∧
      ex ∈ reconciliateSubAccounts store tokenAccounts (some acc)) ∧
    (anySubAccountHaveChanged store tokenAccounts acc.subAccounts = false →
      reconciliateSubAccounts store tokenAccounts (some acc) = subs) := by
  constructor
  · intro ta hta ex hfind hsh
    have hentry : reconcileEntry store acc.subAccounts ta = ex := by
      simp [reconcileEntry, hsubs, hfind, hsh]
    refine ⟨hentry, ?_⟩
    simp only [reconciliateSubAccounts]
    by_cases hflag :
        anySubAccountHaveChanged store tokenAccounts acc.subAccounts = true
    · rw [if_neg (by simp [hflag])]
      exact List.mem_map.mpr ⟨ta, hta, hentry⟩
    · have hflag' :
          anySubAccountHaveChanged store tokenAccounts (some subs) = false := by
        rw [← hsubs]
        exact Bool.eq_false_iff.mpr hflag
      rw [if_pos (by simp [hsubs, hflag'])]
      rw [hsubs]
      exact List.mem_of_find?_eq_some hfind
  · intro hflag
    have hflag' :
        anySubAccountHaveChanged store tokenAccounts (some subs) = false := by
      rw [← hsubs]
      exact hflag
    simp only [reconciliateSubAccounts]
    rw [if_pos (by simp [hsubs, hflag']), hsubs]
    rfl

/-- Witness for C3: with two distinct references `1` (derived) and `0`
(previous) holding identical data, the entry reconciles to the previous
reference `0` and the whole previous list `[0]` is returned. -/
theorem reconciliateSubAccounts_identity_witness :
    (reconcileEntry wStore (InitialAccount.mk (some [0])).subAccounts 1 = 0 ∧
      0 ∈ reconciliateSubAccounts wStore [1]
        (some (InitialAccount.mk (some [0])))) ∧
    reconciliateSubAccounts wStore [1]
      (some (InitialAccount.mk (some [0]))) = [0] := by
  have h := reconciliateSubAccounts_identity wStore [1]
    (InitialAccount.mk (some [0])) [0] rfl
  exact ⟨h.1 1 (by decide) 0 (by decide) (by decide), h.2 (by decide)⟩

/-- Claim C10: `estimateMaxSpendable` always resolves to a non-negative
amount: a negative wallet estimate is clamped to zero, any other estimate
is returned unchanged. -/
theorem estimateMaxSpendable_nonneg (walletEstimate : Int → Int)
    (txFeePerByte : Option Int) (defaultFeePerByte : Int) :
    0 ≤ estimateMaxSpendable walletEstimate txFeePerByte defaultFeePerByte ∧
    (walletEstimate (chosenFeePerByte txFeePerByte defaultFeePerByte) < 0 →
      estimateMaxSpendable walletEstimate txFeePerByte defaultFeePerByte
        = 0) ∧
    (0 ≤ walletEstimate (chosenFeePerByte txFeePerByte defaultFeePerByte) →
      estimateMaxSpendable walletEstimate txFeePerByte defaultFeePerByte =
        walletEstimate (chosenFeePerByte txFeePerByte defaultFeePerByte))
    := by
  refine ⟨?_, ?_, ?_⟩
  · simp only [estimateMaxSpendable]
    split_ifs with h
    · exact le_refl 0
    · exact le_of_not_lt h
  · intro h
    simp [estimateMaxSpendable, if_pos h]
  · intro h
    simp [estimateMaxSpendable, if_neg (not_lt.mpr h)]

/-- Witness for C10: a wallet that estimates `-5` is clamped to zero. -/
theorem estimateMaxSpendable_nonneg_witness :
    estimateMaxSpendable (fun _ => (-5 : Int)) none 1 = 0 :=
  (estimateMaxSpendable_nonneg (fun _ => (-5 : Int)) none 1).2.1 (by decide)

end LLC
